import Mathlib

/-!
# Shallow embedding of the ssz codec core (encoder + lazy reader)

Bytes are modelled as `List Nat` (each entry intended `< 256`). Go slice
expressions that can fail their bounds check (and hence panic) are modelled
as `Option`-valued reads; `none` stands for a Go runtime panic. Machine
integers (`uint32`, `uint64`) are `Nat` with an explicit `% 2 ^ 32`
(resp. truncation to 8 bytes) wherever Go arithmetic can wrap.

The definitions mirror, function by function, the source files
`reader.go` (the `ReadPos` / reader types and the `Encoder` with its
`EncodeXYZ` operations) and the generated reader/schema code in
`tests/partial/voluntary_exit.go`. Where a definition is instead taken
from the natural-language specification (because the corresponding source
file is not part of the excerpt), its doc comment says so explicitly.
-/

namespace SSZ

/-- Little-endian byte expansion: `leBytes k n` is the `k`-byte
little-endian encoding of `n` (truncating at `2 ^ (8 * k)`), as written by
Go's `binary.LittleEndian.PutUintXX`. -/
def leBytes : Nat → Nat → List Nat
  | 0, _ => []
  | k + 1, n => n % 256 :: leBytes k (n / 256)

/-- Little-endian read of a byte list, as done by
`binary.LittleEndian.UintXX` on a slice of the matching width. -/
def leRead : List Nat → Nat
  | [] => 0
  | b :: bs => b + 256 * leRead bs

/-- Go slice expression `payload[a:b]`: defined when `a ≤ b ≤ len(payload)`,
otherwise a bounds panic (`none`). -/
def sliceGo (payload : List Nat) (a b : Nat) : Option (List Nat) :=
  if a ≤ b ∧ b ≤ payload.length then some ((payload.drop a).take (b - a)) else none

/-- Go built-in `copy(dst, src)`: overwrites the first
`min (len dst) (len src)` entries of `dst` with those of `src` and keeps the
rest of `dst`; never fails. -/
def goCopy (dst src : List Nat) : List Nat :=
  src.take (min dst.length src.length) ++ dst.drop (min dst.length src.length)

/-- Wrapping `uint32` subtraction `a - b` for `a b < 2 ^ 32`, as computed by
Go on `uint32` operands. -/
def usub32 (a b : Nat) : Nat :=
  if b ≤ a then a - b else a + 2 ^ 32 - b

/-- ReadPos is the position triple carried by every reader
(`reader.go`): where the value starts, where the following dynamic field's
offset slot sits (0 = last dynamic field, use `ContainerEnd`), and where the
enclosing container ends. -/
structure ReadPos where
  Offset : Nat
  NextOffset : Nat
  ContainerEnd : Nat
deriving DecidableEq, Repr

/-- ReadPos.Add from `reader.go`: move to a static child at local offset
`localOffset`; `uint32` addition wraps. -/
def ReadPos.Add (p : ReadPos) (localOffset : Nat) : ReadPos :=
  ⟨(p.Offset + localOffset) % 2 ^ 32, 0, p.ContainerEnd⟩

/-- ReadPos.AddWithNext from `reader.go`: move to a dynamic child whose
offset slot is at local `localOffset` and whose neighbor slot is at local
`localNextOffset`. -/
def ReadPos.AddWithNext (p : ReadPos) (localOffset localNextOffset : Nat) : ReadPos :=
  ⟨(p.Offset + localOffset) % 2 ^ 32, (p.Offset + localNextOffset) % 2 ^ 32, p.ContainerEnd⟩

/-- ReaderSource.offset from `reader.go`: read the 4-byte little-endian
offset stored at position `o` of the payload; `none` is the slice panic when
the payload is too short. -/
def ReaderSource.offset (payload : List Nat) (o : Nat) : Option Nat :=
  (sliceGo payload o (o + 4)).map leRead

/-- ReaderSource.objectEnd from `reader.go`: the end position of the object
referred to by `pos`; dereferences `NextOffset` unless it is 0, in which
case the container end is used. -/
def ReaderSource.objectEnd (payload : List Nat) (pos : ReadPos) : Option Nat :=
  if pos.NextOffset = 0 then some pos.ContainerEnd
  else ReaderSource.offset payload pos.NextOffset

/-- Uint64Reader.Read from `reader.go`: reads 8 little-endian bytes at
`pos.Offset`; `none` is the slice panic past the payload end. -/
def Uint64Reader.Read (payload : List Nat) (pos : ReadPos) : Option Nat :=
  (sliceGo payload pos.Offset (pos.Offset + 8)).map leRead

/-- ByteArrayReader.Read from `reader.go`: panics (`none`) when the
destination length differs from the declared `Size`, otherwise copies
`Size` bytes at `pos.Offset` into the destination. -/
def ByteArrayReader.Read (size : Nat) (payload : List Nat) (pos : ReadPos)
    (v : List Nat) : Option (List Nat) :=
  if v.length = size then
    (sliceGo payload pos.Offset (pos.Offset + size)).map (fun src => goCopy v src)
  else none

/-- DynamicBytesReader.Read from `reader.go`: dereferences the offset slot
at `pos.Offset`, computes the content end via `objectEnd`, and `copy`-s the
content into the destination (truncating to the destination's length, with
no length check of its own). -/
def DynamicBytesReader.Read (payload : List Nat) (pos : ReadPos)
    (v : List Nat) : Option (List Nat) := do
  let start ← ReaderSource.offset payload pos.Offset
  let stop ← ReaderSource.objectEnd payload pos
  let src ← sliceGo payload start stop
  some (goCopy v src)

/-- ItemKind captures the Go type switch in `ListReader.Item` /
`ListReader.ItemSize`: the item prototype either implements `StaticReader`
(with `SizeSSZ() = size`), or `DynamicReader` (with `SizeSSZ(false) =
size`), or neither interface (as is the case for `DynamicBytesReader`,
which declares no `SizeSSZ` method at all). -/
inductive ItemKind where
  | static (size : Nat)
  | dynamic (size : Nat)
  | neither
deriving DecidableEq, Repr

/-- ListReader.ItemSize from `reader.go`: the prototype's size, or a panic
(`none`, source: `panic("invalid item type")`) when the prototype
implements neither reader interface. -/
def ListReader.ItemSize (k : ItemKind) : Option Nat :=
  match k with
  | .static size => some size
  | .dynamic size => some size
  | .neither => none

/-- ListReader.Item from `reader.go`, with `none` modelling each of its
panics (slice panics, `start == end`, out-of-bounds index, division by
zero). Note the source computes the child offset as `start + uint32(n)` and
the next-offset slot as `start + 4`, exactly as transcribed here. -/
def ListReader.Item (k : ItemKind) (payload : List Nat) (pos : ReadPos)
    (n : Nat) : Option ReadPos := do
  let start ← ReaderSource.offset payload pos.Offset
  let stop ← ReaderSource.objectEnd payload pos
  if start = stop then none
  else
    match k with
    | .static isz =>
        if isz = 0 then none
        else
          let length := usub32 stop start / isz
          if n ≥ length then none
          else some ⟨(start + n) % 2 ^ 32, 0, stop⟩
    | .dynamic isz =>
        if isz = 0 then none
        else
          let length := usub32 stop start / isz
          if n ≥ length then none
          else some ⟨(start + n) % 2 ^ 32, (start + 4) % 2 ^ 32, stop⟩
    | .neither => some ⟨(start + n) % 2 ^ 32, 0, stop⟩

/-- ListReader.Len from `reader.go`: `(end - start) / ItemSize()`, with
`none` modelling the slice panics, the `ItemSize` panic and the division by
zero. -/
def ListReader.Len (k : ItemKind) (payload : List Nat) (pos : ReadPos) :
    Option Nat := do
  let start ← ReaderSource.offset payload pos.Offset
  let stop ← ReaderSource.objectEnd payload pos
  let isz ← ListReader.ItemSize k
  if isz = 0 then none
  else some (usub32 stop start / isz)

/-- Encoder state from `reader.go` (the encoder half of the excerpt): a
combined streaming/buffered encoder. `stream = true` models `outWriter ≠
nil`; `sink k` is the outcome of the `k`-th `Write` call on the underlying
sink (`none` = success, `some e` = the error value `e`); `calls` counts the
`Write` calls issued so far; `out` is the byte sequence accepted so far (by
the sink, or written through the pre-sized buffer cursor); `err` is the
latched write error; `offset` is the dynamic-offset cursor (a `uint32`,
kept `< 2 ^ 32` by every update). -/
structure Encoder where
  stream : Bool
  sink : Nat → Option Nat
  calls : Nat
  out : List Nat
  err : Option Nat
  offset : Nat

/-- Go statement `_, enc.err = enc.outWriter.Write(bytes)`: attempts the
next sink write and stores its outcome (including a successful `nil`) into
`err`. Callers guard this with an `err` check, mirroring the source. -/
def Encoder.write (enc : Encoder) (bytes : List Nat) : Encoder :=
  match enc.sink enc.calls with
  | none => { enc with out := enc.out ++ bytes, calls := enc.calls + 1, err := none }
  | some e => { enc with calls := enc.calls + 1, err := some e }

/-- Buffered-mode write: `binary.LittleEndian.PutXXX(enc.outBuffer, ...)` /
`copy(enc.outBuffer, ...)` followed by advancing the buffer cursor
(`enc.outBuffer = enc.outBuffer[k:]`). The bytes written through the cursor
so far are accumulated in `out`. -/
def Encoder.putBuf (enc : Encoder) (bytes : List Nat) : Encoder :=
  { enc with out := enc.out ++ bytes }

/-- Encoder.offsetDynamics from `reader.go`: sets the dynamic-offset cursor
for the container about to emit its dynamic region (the argument is a
`uint32`). -/
def Encoder.offsetDynamics (enc : Encoder) (offset : Nat) : Encoder :=
  { enc with offset := offset % 2 ^ 32 }

/-- EncodeUint64 from `reader.go`. -/
def EncodeUint64 (enc : Encoder) (n : Nat) : Encoder :=
  if enc.stream then
    if enc.err.isSome then enc
    else enc.write (leBytes 8 n)
  else enc.putBuf (leBytes 8 n)

/-- EncodeUint256 from `reader.go`: a `nil` pointer (`none`) serializes as
32 zero bytes, otherwise `MarshalSSZTo` writes the 32-byte little-endian
value. -/
def EncodeUint256 (enc : Encoder) (n : Option Nat) : Encoder :=
  if enc.stream then
    if enc.err.isSome then enc
    else
      match n with
      | some v => enc.write (leBytes 32 v)
      | none => enc.write (List.replicate 32 0)
  else
    match n with
    | some v => enc.putBuf (leBytes 32 v)
    | none => enc.putBuf (List.replicate 32 0)

/-- EncodeStaticBytes from `reader.go`. -/
def EncodeStaticBytes (enc : Encoder) (blob : List Nat) : Encoder :=
  if enc.stream then
    if enc.err.isSome then enc
    else enc.write blob
  else enc.putBuf blob

/-- EncodeDynamicBytesOffset from `reader.go`: emits the current dynamic
offset as a 4-byte little-endian placeholder, then advances the offset by
the blob length (wrapping `uint32` addition). In streaming mode with a
latched error the whole operation is skipped (early return). -/
def EncodeDynamicBytesOffset (enc : Encoder) (blob : List Nat) : Encoder :=
  if enc.stream then
    if enc.err.isSome then enc
    else
      let enc2 := enc.write (leBytes 4 enc.offset)
      { enc2 with offset := (enc2.offset + blob.length) % 2 ^ 32 }
  else
    let enc2 := enc.putBuf (leBytes 4 enc.offset)
    { enc2 with offset := (enc2.offset + blob.length) % 2 ^ 32 }

/-- EncodeDynamicBytesContent from `reader.go`. -/
def EncodeDynamicBytesContent (enc : Encoder) (blob : List Nat) : Encoder :=
  if enc.stream then
    if enc.err.isSome then enc
    else enc.write blob
  else enc.putBuf blob

/-- EncodeDynamicObjectContent from `reader.go`: on a latched error it is a
no-op; otherwise it resets the dynamic offset to the object's fixed size
(`obj.SizeSSZ(true)`) and re-enters the schema walk (`obj.DefineSSZ`),
modelled here by an arbitrary function on the encoder state. -/
def EncodeDynamicObjectContent (enc : Encoder) (fixedSize : Nat)
    (define : Encoder → Encoder) : Encoder :=
  if enc.err.isSome then enc
  else define (enc.offsetDynamics fixedSize)

/-- EncodeSliceOfDynamicBytesOffset from `reader.go`: emits the offset
placeholder, then advances the offset by `4 + len(blob)` per blob (the loop
runs even when the placeholder write just failed, matching the source where
the loop follows the mode branch). -/
def EncodeSliceOfDynamicBytesOffset (enc : Encoder) (blobs : List (List Nat)) : Encoder :=
  if enc.stream then
    if enc.err.isSome then enc
    else
      let enc2 := enc.write (leBytes 4 enc.offset)
      { enc2 with offset := blobs.foldl (fun o b => (o + (4 + b.length)) % 2 ^ 32) enc2.offset }
  else
    let enc2 := enc.putBuf (leBytes 4 enc.offset)
    { enc2 with offset := blobs.foldl (fun o b => (o + (4 + b.length)) % 2 ^ 32) enc2.offset }

/-- First (per-item offset) loop of `EncodeSliceOfDynamicBytesContent`,
streaming branch: each iteration early-returns on a latched error, writes
the current offset and advances it by the blob length. -/
def sliceDynOffsetsStream : Encoder → List (List Nat) → Encoder
  | enc, [] => enc
  | enc, blob :: rest =>
      if enc.err.isSome then enc
      else
        let enc2 := enc.write (leBytes 4 enc.offset)
        sliceDynOffsetsStream { enc2 with offset := (enc2.offset + blob.length) % 2 ^ 32 } rest

/-- First (per-item offset) loop of `EncodeSliceOfDynamicBytesContent`,
buffered branch: unconditional writes. -/
def sliceDynOffsetsBuf : Encoder → List (List Nat) → Encoder
  | enc, [] => enc
  | enc, blob :: rest =>
      let enc2 := enc.putBuf (leBytes 4 enc.offset)
      sliceDynOffsetsBuf { enc2 with offset := (enc2.offset + blob.length) % 2 ^ 32 } rest

/-- Second (content) loop of `EncodeSliceOfDynamicBytesContent`, streaming
branch. -/
def sliceDynContentStream : Encoder → List (List Nat) → Encoder
  | enc, [] => enc
  | enc, blob :: rest =>
      if enc.err.isSome then enc
      else sliceDynContentStream (enc.write blob) rest

/-- Second (content) loop of `EncodeSliceOfDynamicBytesContent`, buffered
branch. -/
def sliceDynContentBuf : Encoder → List (List Nat) → Encoder
  | enc, [] => enc
  | enc, blob :: rest => sliceDynContentBuf (enc.putBuf blob) rest

/-- EncodeSliceOfDynamicBytesContent from `reader.go`: resets the dynamic
offset to `4 * len(blobs)` (unconditionally, before any error check), then
runs the per-item offset loop followed by the content loop. The source's
early `return` out of the first loop coincides with this composition
because the second loop is the identity on a state with a latched error. -/
def EncodeSliceOfDynamicBytesContent (enc : Encoder) (blobs : List (List Nat)) : Encoder :=
  let enc1 := enc.offsetDynamics (4 * blobs.length)
  if enc1.stream then sliceDynContentStream (sliceDynOffsetsStream enc1 blobs) blobs
  else sliceDynContentBuf (sliceDynOffsetsBuf enc1 blobs) blobs

/-- EncOp names one call to an encode operation of `reader.go`, so that
sequences of encoder calls (schema walks) can be reasoned about uniformly. -/
inductive EncOp where
  | uint64 (n : Nat)
  | uint256 (n : Option Nat)
  | staticBytes (blob : List Nat)
  | dynamicBytesOffset (blob : List Nat)
  | dynamicBytesContent (blob : List Nat)
  | sliceOfDynamicBytesOffset (blobs : List (List Nat))
  | sliceOfDynamicBytesContent (blobs : List (List Nat))

/-- Dispatch of one `EncOp` to the corresponding source operation. -/
def applyOp (enc : Encoder) : EncOp → Encoder
  | .uint64 n => EncodeUint64 enc n
  | .uint256 n => EncodeUint256 enc n
  | .staticBytes blob => EncodeStaticBytes enc blob
  | .dynamicBytesOffset blob => EncodeDynamicBytesOffset enc blob
  | .dynamicBytesContent blob => EncodeDynamicBytesContent enc blob
  | .sliceOfDynamicBytesOffset blobs => EncodeSliceOfDynamicBytesOffset enc blobs
  | .sliceOfDynamicBytesContent blobs => EncodeSliceOfDynamicBytesContent enc blobs

/-- Run a sequence of encode operations left to right. -/
def runOps : Encoder → List EncOp → Encoder
  | enc, [] => enc
  | enc, op :: rest => runOps (applyOp enc op) rest

/-- Fresh streaming encoder over a sink with the given write outcomes. -/
def streamEnc (sink : Nat → Option Nat) : Encoder :=
  ⟨true, sink, 0, [], none, 0⟩

/-- Fresh buffered encoder over an exactly pre-sized buffer. -/
def bufEnc : Encoder :=
  ⟨false, fun _ => none, 0, [], none, 0⟩

/-- VoluntaryExit.DefineSSZ from `tests/partial/voluntary_exit.go`: two
uint64 fields, `Epoch` then `ValidatorIndex`. -/
def VoluntaryExit.DefineSSZ (epoch validatorIndex : Nat) : List EncOp :=
  [.uint64 epoch, .uint64 validatorIndex]

/-- Buffered encoding of a `VoluntaryExit` (a fully static object: the
schema walk is a single pass of fixed-width writes). -/
def encodeVoluntaryExit (epoch validatorIndex : Nat) : List Nat :=
  (runOps bufEnc (VoluntaryExit.DefineSSZ epoch validatorIndex)).out

/-- Modelled from the spec: the decoder is not part of the source excerpt
(only its `DecodeXYZ` call sites in the `Codec` are). Per the spec, decoding
a `VoluntaryExit` mirrors its schema: two little-endian `uint64` reads of 8
bytes each from a 16-byte payload; a shorter payload fails with
`InputShort`. -/
def decodeVoluntaryExit (payload : List Nat) : Option (Nat × Nat) :=
  if payload.length = 16 then
    some (leRead (payload.take 8), leRead ((payload.drop 8).take 8))
  else none

/-- Convenience: `n` zero bytes. -/
def zeros (n : Nat) : List Nat := List.replicate n 0

/-- ExecutionPayload.DefineSSZ from `tests/partial/voluntary_exit.go`,
linearized into the two-pass encode order. The per-field offset/content
split follows the source schema (fields 0-13, with dynamic fields 10 and
13); the driver that walks the schema twice (offsets during the fixed pass,
contents afterwards) is modelled from the spec, which prescribes exactly
this order, and matches the hand-expanded schema of `IndexedAttestation`
in the source (offset calls first, content calls at the end). All static
fields other than the two dynamic ones are taken as zero here, as the
concrete scenario fixes only `ExtraData` and `Transactions`. -/
def ExecutionPayload.DefineSSZ (extraData : List Nat) (txs : List (List Nat)) : List EncOp :=
  [.staticBytes (zeros 32),        -- ParentHash
   .staticBytes (zeros 20),        -- FeeRecipient
   .staticBytes (zeros 32),        -- StateRoot
   .staticBytes (zeros 32),        -- ReceiptsRoot
   .staticBytes (zeros 256),       -- LogsBloom
   .staticBytes (zeros 32),        -- PrevRandao
   .uint64 0,                      -- BlockNumber
   .uint64 0,                      -- GasLimit
   .uint64 0,                      -- GasUsed
   .uint64 0,                      -- Timestamp
   .dynamicBytesOffset extraData,  -- ExtraData offset slot
   .uint256 none,                  -- BaseFeePerGas (nil encodes as 32 zero bytes)
   .staticBytes (zeros 32),        -- BlockHash
   .sliceOfDynamicBytesOffset txs, -- Transactions offset slot
   .dynamicBytesContent extraData, -- ExtraData content
   .sliceOfDynamicBytesContent txs] -- Transactions content

/-- Buffered encoding of an `ExecutionPayload`: the dynamic-offset cursor
starts at the fixed size 508 (`SizeSSZ(true)` in the source schema), as the
spec's offset discipline prescribes. -/
def encodeExecutionPayload (extraData : List Nat) (txs : List (List Nat)) : List Nat :=
  (runOps (bufEnc.offsetDynamics 508) (ExecutionPayload.DefineSSZ extraData txs)).out

/-- Scenario S6 payload: `ExtraData = [0x01, 0x02]`,
`Transactions = [[0x10], [0x20, 0x21]]`, every other field zero. -/
def epPayload : List Nat := encodeExecutionPayload [1, 2] [[16], [32, 33]]

/-- Path `.Transactions().Item(1)` followed by a `Read` into a 2-byte
destination, over the S6 payload. `ExecutionPayloadReader.Transactions` in
the source returns `ListReader[ssz.DynamicBytesReader]` initialized at
`pos.Add(495)`; `DynamicBytesReader` implements neither `StaticReader` nor
`DynamicReader`, so the list reader's type switch takes its default path. -/
def epTransactionsItem1Read : Option (List Nat) :=
  match ListReader.Item ItemKind.neither epPayload
      (ReadPos.Add ⟨0, 0, epPayload.length⟩ 495) 1 with
  | none => none
  | some child => DynamicBytesReader.Read epPayload child (zeros 2)

/-- Scenario S5 payload wrapped for the list reader: an offset slot at
position 0 holding 4, followed by the three-uint64 list payload
`[1, 2, 3]` (so the list extent is `[4, 28)`). -/
def u64ListPayload : List Nat :=
  [4, 0, 0, 0] ++ leBytes 8 1 ++ leBytes 8 2 ++ leBytes 8 3

/-- A dynamic-item list payload wrapped the same way: offset slot at 0
holding 4; list extent `[4, 15)` with the two per-item offset slots
`[8, 9]` followed by contents `[0x10]` and `[0x20, 0x21]`. -/
def dynListPayload : List Nat :=
  [4, 0, 0, 0] ++ [8, 0, 0, 0] ++ [9, 0, 0, 0] ++ [16, 32, 33]

/-- C1. For a static-item list over extent `[4, 28)` with `itemSize = 8`,
the length accessor does return `(end - start) / itemSize = 3`, but
`item(1)` carries `Offset = start + n = 5`, not `start + n * itemSize = 12`
as the claim states (the `NextOffset = 0` and `ContainerEnd = end` parts do
hold); consequently reading `item(1)` as a uint64 does not yield the second
element, while reading at the claimed position does. -/
theorem claim1_static_list_item_arithmetic :
    ListReader.Len (.static 8) u64ListPayload ⟨0, 0, 28⟩ = some 3 ∧
    ListReader.Item (.static 8) u64ListPayload ⟨0, 0, 28⟩ 1 = some ⟨5, 0, 28⟩ ∧
    (5 : Nat) ≠ 4 + 1 * 8 ∧
    Uint64Reader.Read u64ListPayload ⟨5, 0, 28⟩ ≠ some 2 ∧
    Uint64Reader.Read u64ListPayload ⟨4 + 1 * 8, 0, 28⟩ = some 2 := by
  decide

/-- C2. For a dynamic-item list over extent `[4, 15)` whose first stored
offset is 8 (so the claim's length is `8 / 4 = 2`), the length accessor
instead returns `(end - start) / SizeSSZ(false)` (3 for a prototype of
dynamic size 3), and `item(1)` carries `Offset = start + n = 5` instead of
the offset slot `start + 4 * 1 = 8`, with `NextOffset = start + 4 = 8`
rather than the list's end for the last item (dereferencing it yields 9,
not 15). -/
theorem claim2_dynamic_list_item_arithmetic :
    ReaderSource.offset dynListPayload 4 = some 8 ∧
    ListReader.Len (.dynamic 3) dynListPayload ⟨0, 0, 15⟩ = some 3 ∧
    (3 : Nat) ≠ 8 / 4 ∧
    ListReader.Item (.dynamic 3) dynListPayload ⟨0, 0, 15⟩ 1 = some ⟨5, 8, 15⟩ ∧
    (5 : Nat) ≠ 4 + 4 * 1 ∧
    ReaderSource.objectEnd dynListPayload ⟨5, 8, 15⟩ = some 9 ∧ (9 : Nat) ≠ 15 := by
  decide

set_option maxRecDepth 40000

/-- C3. Scenario S6: the encoder side of the claim holds (508-byte fixed
region with the ExtraData offset 508 stored at local 436 and the
Transactions offset 510 stored at local 504; the Transactions sub-payload
is the item offsets `[8, 9]` followed by `10` and `20 21`), but the partial
read `.Transactions().Item(1)` returns `[0x00, 0x00]`, not `[0x20, 0x21]`:
the generated accessor fetches the list's offset slot from local byte 495
(inside `BlockHash`; the encoder wrote the slot at 504), and
`ListReader.Item` adds the raw index `n` to the list start. -/
theorem claim3_execution_payload_scenario :
    epPayload.length = 521 ∧
    ReaderSource.offset epPayload 436 = some 508 ∧
    ReaderSource.offset epPayload 504 = some 510 ∧
    epPayload.drop 508 = [1, 2] ++ [8, 0, 0, 0, 9, 0, 0, 0] ++ [16] ++ [32, 33] ∧
    epTransactionsItem1Read = some [0, 0] ∧
    epTransactionsItem1Read ≠ some [32, 33] := by
  decide

/-- C8. Scenario S1: `VoluntaryExit{Epoch: 7, ValidatorIndex:
0x1122334455667788}` encodes to exactly the 16 bytes
`07 00 00 00 00 00 00 00 88 77 66 55 44 33 22 11`, and decoding those
bytes yields the original pair of field values. -/
theorem claim8_voluntary_exit_roundtrip :
    encodeVoluntaryExit 7 0x1122334455667788 =
      [0x07, 0, 0, 0, 0, 0, 0, 0, 0x88, 0x77, 0x66, 0x55, 0x44, 0x33, 0x22, 0x11] ∧
    decodeVoluntaryExit
        [0x07, 0, 0, 0, 0, 0, 0, 0, 0x88, 0x77, 0x66, 0x55, 0x44, 0x33, 0x22, 0x11] =
      some (7, 0x1122334455667788) := by
  decide

/-- Helper: the streaming per-item offset loop is the identity on a state
with a latched error. -/
theorem sliceDynOffsetsStream_halted (enc : Encoder) (blobs : List (List Nat))
    (he : enc.err.isSome) : sliceDynOffsetsStream enc blobs = enc := by
  cases blobs <;> simp [sliceDynOffsetsStream, he]

/-- Helper: the streaming content loop is the identity on a state with a
latched error. -/
theorem sliceDynContentStream_halted (enc : Encoder) (blobs : List (List Nat))
    (he : enc.err.isSome) : sliceDynContentStream enc blobs = enc := by
  cases blobs <;> simp [sliceDynContentStream, he]

/-- Helper: every encode operation, applied to a streaming encoder with a
latched error, leaves the output and the latched error untouched (and stays
in streaming mode). -/
theorem applyOp_halted (enc : Encoder) (e : Nat) (op : EncOp)
    (hs : enc.stream = true) (he : enc.err = some e) :
    (applyOp enc op).out = enc.out ∧ (applyOp enc op).err = some e ∧
    (applyOp enc op).stream = true := by
  have hsome : enc.err.isSome := by simp [he]
  cases op with
  | uint64 n => simp [applyOp, EncodeUint64, hs, hsome, he]
  | uint256 n => simp [applyOp, EncodeUint256, hs, hsome, he]
  | staticBytes blob => simp [applyOp, EncodeStaticBytes, hs, hsome, he]
  | dynamicBytesOffset blob => simp [applyOp, EncodeDynamicBytesOffset, hs, hsome, he]
  | dynamicBytesContent blob => simp [applyOp, EncodeDynamicBytesContent, hs, hsome, he]
  | sliceOfDynamicBytesOffset blobs =>
      simp [applyOp, EncodeSliceOfDynamicBytesOffset, hs, hsome, he]
  | sliceOfDynamicBytesContent blobs =>
      have h1 : (enc.offsetDynamics (4 * blobs.length)).err.isSome := by
        simp [Encoder.offsetDynamics, he]
      have h2 := sliceDynOffsetsStream_halted (enc.offsetDynamics (4 * blobs.length)) blobs h1
      have h3 := sliceDynContentStream_halted (enc.offsetDynamics (4 * blobs.length)) blobs h1
      have h4 : (enc.offsetDynamics (4 * blobs.length)).stream = true := by
        simpa [Encoder.offsetDynamics] using hs
      simp only [applyOp, EncodeSliceOfDynamicBytesContent, h4, if_true, h2, h3]
      simp [Encoder.offsetDynamics, he]

/-- Helper: a latched error persists through any further sequence of encode
operations, with no output produced. -/
theorem runOps_halted (ops : List EncOp) : ∀ (enc : Encoder) (e : Nat),
    enc.stream = true → enc.err = some e →
    (runOps enc ops).out = enc.out ∧ (runOps enc ops).err = some e := by
  induction ops with
  | nil => exact fun enc e _ he => ⟨rfl, he⟩
  | cons op rest ih =>
      intro enc e hs he
      obtain ⟨h1, h2, h3⟩ := applyOp_halted enc e op hs he
      obtain ⟨h4, h5⟩ := ih (applyOp enc op) e h3 h2
      exact ⟨by simpa [runOps, h1] using h4, by simpa [runOps] using h5⟩

/-- C4. The offset-phase operation (here `EncodeDynamicBytesOffset`, in
either mode, with no latched error and a healthy sink) appends exactly the
4-byte little-endian rendering of the current dynamic offset to the output
and advances the offset by the blob's serialized content length; and the
content-phase entry into a dynamic object (`EncodeDynamicObjectContent`)
hands the schema walk an encoder whose dynamic offset has been reset to the
object's fixed-region size. -/
theorem claim4_offset_phase_discipline (enc : Encoder) (blob : List Nat)
    (fixedSize : Nat) (define : Encoder → Encoder)
    (herr : enc.err = none) (hsink : ∀ k, enc.sink k = none)
    (hoff : enc.offset + blob.length < 2 ^ 32) (hfix : fixedSize < 2 ^ 32) :
    (EncodeDynamicBytesOffset enc blob).out = enc.out ++ leBytes 4 enc.offset ∧
    (EncodeDynamicBytesOffset enc blob).offset = enc.offset + blob.length ∧
    EncodeDynamicObjectContent enc fixedSize define =
      define { enc with offset := fixedSize } := by
  refine ⟨?_, ?_, ?_⟩
  · cases hstream : enc.stream
    · simp [EncodeDynamicBytesOffset, hstream, Encoder.putBuf]
    · simp [EncodeDynamicBytesOffset, hstream, herr, Encoder.write, hsink]
  · have hoff2 : (enc.offset + blob.length) % 4294967296 = enc.offset + blob.length :=
      Nat.mod_eq_of_lt (by omega)
    cases hstream : enc.stream
    · simp [EncodeDynamicBytesOffset, hstream, Encoder.putBuf, hoff2]
    · simp [EncodeDynamicBytesOffset, hstream, herr, Encoder.write, hsink, hoff2]
  · have hfix2 : fixedSize % 4294967296 = fixedSize := Nat.mod_eq_of_lt (by omega)
    simp [EncodeDynamicObjectContent, herr, Encoder.offsetDynamics, hfix2]

/-- Witness for C4 at a concrete input: a fresh streaming encoder, a 3-byte
blob and a dynamic object of fixed size 12. -/
theorem claim4_offset_phase_discipline_witness :
    (EncodeDynamicBytesOffset (streamEnc fun _ => none) [1, 2, 3]).out = [0, 0, 0, 0] ∧
    (EncodeDynamicBytesOffset (streamEnc fun _ => none) [1, 2, 3]).offset = 3 ∧
    EncodeDynamicObjectContent (streamEnc fun _ => none) 12 id =
      id { streamEnc (fun _ => none) with offset := 12 } :=
  claim4_offset_phase_discipline (streamEnc fun _ => none) [1, 2, 3] 12 id rfl
    (fun _ => rfl) (by decide) (by decide)

/-- C5. In streaming mode, a first write failure (the sink rejecting the
write attempted by an encode call on an error-free encoder, here a uint64
write) latches the sink's error into the encoder; after any further
sequence of encode calls the output is exactly what it was before the
failure and the latched error is still that first error, which is therefore
what is surfaced at the end of encoding. -/
theorem claim5_streaming_error_latch (enc : Encoder) (e n : Nat) (ops : List EncOp)
    (hs : enc.stream = true) (he : enc.err = none)
    (hf : enc.sink enc.calls = some e) :
    (EncodeUint64 enc n).err = some e ∧
    (EncodeUint64 enc n).out = enc.out ∧
    (runOps (EncodeUint64 enc n) ops).err = some e ∧
    (runOps (EncodeUint64 enc n) ops).out = enc.out := by
  have hstep : (EncodeUint64 enc n).err = some e ∧ (EncodeUint64 enc n).out = enc.out ∧
      (EncodeUint64 enc n).stream = true := by
    simp [EncodeUint64, hs, he, Encoder.write, hf]
  obtain ⟨h1, h2, h3⟩ := hstep
  obtain ⟨h4, h5⟩ := runOps_halted ops (EncodeUint64 enc n) e h3 h1
  exact ⟨h1, h2, h5, by rw [h4, h2]⟩

/-- Witness for C5: a sink that rejects every write with error 7; the first
encode call latches 7, and two further encode calls leave the (empty)
output and the latched error alone. -/
theorem claim5_streaming_error_latch_witness :
    (EncodeUint64 (streamEnc fun _ => some 7) 5).err = some 7 ∧
    (EncodeUint64 (streamEnc fun _ => some 7) 5).out = (streamEnc fun _ => some 7).out ∧
    (runOps (EncodeUint64 (streamEnc fun _ => some 7) 5)
      [.staticBytes [1], .uint64 2]).err = some 7 ∧
    (runOps (EncodeUint64 (streamEnc fun _ => some 7) 5)
      [.staticBytes [1], .uint64 2]).out = (streamEnc fun _ => some 7).out :=
  claim5_streaming_error_latch (streamEnc fun _ => some 7) 7 5
    [.staticBytes [1], .uint64 2] rfl rfl rfl

/-- Helper: a guarded streaming write over a healthy sink appends the bytes
and keeps the error clear. -/
theorem write_ok (s : Encoder) (bytes : List Nat) (hsink : ∀ k, s.sink k = none) :
    s.write bytes = { s with out := s.out ++ bytes, calls := s.calls + 1, err := none } := by
  simp [Encoder.write, hsink]

/-- Agreement invariant between a streaming encoder over a sink that never
fails and a buffered encoder: the streaming side is healthy, and both sides
have produced the same output and carry the same dynamic offset. -/
def agreeSB (s b : Encoder) : Prop :=
  s.stream = true ∧ (∀ k, s.sink k = none) ∧ s.err = none ∧
  b.stream = false ∧ s.out = b.out ∧ s.offset = b.offset

/-- Helper: the per-item offset loops of the two modes preserve agreement. -/
theorem sliceDynOffsets_agree (blobs : List (List Nat)) : ∀ s b : Encoder,
    agreeSB s b → agreeSB (sliceDynOffsetsStream s blobs) (sliceDynOffsetsBuf b blobs) := by
  induction blobs with
  | nil => intro s b h; simpa [sliceDynOffsetsStream, sliceDynOffsetsBuf] using h
  | cons blob rest ih =>
      intro s b h
      obtain ⟨hs, hsink, herr, hb, hout, hoff⟩ := h
      simp only [sliceDynOffsetsStream, sliceDynOffsetsBuf, herr, Option.isSome_none,
        Bool.false_eq_true, if_false, write_ok s _ hsink, Encoder.putBuf]
      apply ih
      refine ⟨by simp [hs], by simp [hsink], by simp, by simp [hb], ?_, ?_⟩ <;>
        simp [hout, hoff]

/-- Helper: the content loops of the two modes preserve agreement. -/
theorem sliceDynContent_agree (blobs : List (List Nat)) : ∀ s b : Encoder,
    agreeSB s b → agreeSB (sliceDynContentStream s blobs) (sliceDynContentBuf b blobs) := by
  induction blobs with
  | nil => intro s b h; simpa [sliceDynContentStream, sliceDynContentBuf] using h
  | cons blob rest ih =>
      intro s b h
      obtain ⟨hs, hsink, herr, hb, hout, hoff⟩ := h
      simp only [sliceDynContentStream, sliceDynContentBuf, herr, Option.isSome_none,
        Bool.false_eq_true, if_false, write_ok s _ hsink, Encoder.putBuf]
      apply ih
      refine ⟨by simp [hs], by simp [hsink], by simp, by simp [hb], ?_, ?_⟩ <;>
        simp [hout, hoff]

/-- Helper: every encode operation preserves agreement between the two
modes: starting from the same output and offset, the streaming branch (with
a healthy sink) and the buffered branch write the same byte sequence and
move the offset identically. -/
theorem applyOp_agree (op : EncOp) (s b : Encoder) (h : agreeSB s b) :
    agreeSB (applyOp s op) (applyOp b op) := by
  obtain ⟨hs, hsink, herr, hb, hout, hoff⟩ := h
  cases op with
  | uint64 n =>
      simp [applyOp, EncodeUint64, hs, hb, herr, write_ok s _ hsink, Encoder.putBuf,
        agreeSB, hsink, hout, hoff]
  | uint256 n =>
      cases n with
      | none =>
          simp [applyOp, EncodeUint256, hs, hb, herr, write_ok s _ hsink, Encoder.putBuf,
            agreeSB, hsink, hout, hoff]
      | some v =>
          simp [applyOp, EncodeUint256, hs, hb, herr, write_ok s _ hsink, Encoder.putBuf,
            agreeSB, hsink, hout, hoff]
  | staticBytes blob =>
      simp [applyOp, EncodeStaticBytes, hs, hb, herr, write_ok s _ hsink, Encoder.putBuf,
        agreeSB, hsink, hout, hoff]
  | dynamicBytesOffset blob =>
      simp [applyOp, EncodeDynamicBytesOffset, hs, hb, herr, write_ok s _ hsink,
        Encoder.putBuf, agreeSB, hsink, hout, hoff]
  | dynamicBytesContent blob =>
      simp [applyOp, EncodeDynamicBytesContent, hs, hb, herr, write_ok s _ hsink,
        Encoder.putBuf, agreeSB, hsink, hout, hoff]
  | sliceOfDynamicBytesOffset blobs =>
      simp [applyOp, EncodeSliceOfDynamicBytesOffset, hs, hb, herr, write_ok s _ hsink,
        Encoder.putBuf, agreeSB, hsink, hout, hoff]
  | sliceOfDynamicBytesContent blobs =>
      have h1 : agreeSB (s.offsetDynamics (4 * blobs.length))
          (b.offsetDynamics (4 * blobs.length)) := by
        exact ⟨by simpa [Encoder.offsetDynamics] using hs,
          fun k => by simpa [Encoder.offsetDynamics] using hsink k,
          by simpa [Encoder.offsetDynamics] using herr,
          by simpa [Encoder.offsetDynamics] using hb,
          by simpa [Encoder.offsetDynamics] using hout,
          by simp [Encoder.offsetDynamics]⟩
      have h2 := sliceDynContent_agree blobs _ _ (sliceDynOffsets_agree blobs _ _ h1)
      have h4 : (s.offsetDynamics (4 * blobs.length)).stream = true := by
        simpa [Encoder.offsetDynamics] using hs
      have h5 : (b.offsetDynamics (4 * blobs.length)).stream = false := by
        simpa [Encoder.offsetDynamics] using hb
      simp only [applyOp, EncodeSliceOfDynamicBytesContent, h4, h5, if_true,
        Bool.false_eq_true, if_false]
      exact h2

/-- Helper: agreement is preserved by any sequence of encode operations. -/
theorem runOps_agree (ops : List EncOp) : ∀ s b : Encoder,
    agreeSB s b → agreeSB (runOps s ops) (runOps b ops) := by
  induction ops with
  | nil => intro s b h; exact h
  | cons op rest ih => intro s b h; exact ih _ _ (applyOp_agree op s b h)

/-- C6. Running any sequence of encode operations on a fresh streaming
encoder over a sink that never fails and on the fresh buffered encoder
produces byte-identical output (and the same final dynamic-offset cursor). -/
theorem claim6_stream_buffer_equivalence (ops : List EncOp) :
    (runOps (streamEnc fun _ => none) ops).out = (runOps bufEnc ops).out ∧
    (runOps (streamEnc fun _ => none) ops).offset = (runOps bufEnc ops).offset := by
  have h : agreeSB (streamEnc fun _ => none) bufEnc :=
    ⟨rfl, fun _ => rfl, rfl, rfl, rfl, rfl⟩
  have h2 := runOps_agree ops _ _ h
  exact ⟨h2.2.2.2.2.1, h2.2.2.2.2.2⟩

/-- C7 counterexample. In this embedding `none` models a Go panic. Over the
S5 list payload, the out-of-range access `item(3)` (the list holds 3 items)
panics (source: `panic("out of bounds")`) rather than returning a typed
error, and a `Uint64Reader.Read` whose 8-byte slot overruns the payload
panics on the slice bounds rather than returning `InputShort`: the claim is
false at these inputs. -/
theorem claim7_error_instead_of_panic_counterexample :
    ListReader.Item (.static 8) u64ListPayload ⟨0, 0, 28⟩ 3 = none ∧
    Uint64Reader.Read u64ListPayload ⟨24, 0, 28⟩ = none := by
  decide

/-- C7 amended. An out-of-range `item(n)` over a static- or dynamic-item
list panics (`none`; the reader API has no error channel at all), and a
fixed-width `Uint64Reader.Read` past the payload end panics on the Go slice
bounds check; neither returns a typed error. -/
theorem claim7_amended_out_of_range_panics (payload : List Nat) (pos q : ReadPos)
    (k : ItemKind) (isz n start stop : Nat)
    (h1 : ReaderSource.offset payload pos.Offset = some start)
    (h2 : ReaderSource.objectEnd payload pos = some stop)
    (hk : k = .static isz ∨ k = .dynamic isz)
    (hn : n ≥ usub32 stop start / isz)
    (hq : payload.length < q.Offset + 8) :
    ListReader.Item k payload pos n = none ∧
    Uint64Reader.Read payload q = none := by
  constructor
  · rcases hk with hk | hk <;> subst hk <;>
      simp only [ListReader.Item, h1, h2, Option.bind_eq_bind, Option.some_bind] <;>
      split_ifs <;> rfl
  · simp only [Uint64Reader.Read, sliceGo]
    rw [if_neg (by omega)]
    rfl

/-- Witness for the amended C7 at concrete inputs over the S5 list payload:
`item(5)` with 3 items panics, and a uint64 read at offset 24 of the
28-byte payload panics. -/
theorem claim7_amended_out_of_range_panics_witness :
    ListReader.Item (.static 8) u64ListPayload ⟨0, 0, 28⟩ 5 = none ∧
    Uint64Reader.Read u64ListPayload ⟨24, 0, 28⟩ = none :=
  claim7_amended_out_of_range_panics u64ListPayload ⟨0, 0, 28⟩ ⟨24, 0, 28⟩
    (.static 8) 8 5 4 28 (by decide) (by decide) (Or.inl rfl) (by decide) (by decide)

/-- C9. In buffered mode (`outWriter == nil`), the primitive and
offset-phase operations neither read nor write the latched error field:
whatever error value `e` is latched, they write their bytes into the buffer
unconditionally and leave `err = e`. -/
theorem claim9_buffered_ignores_error (sink : Nat → Option Nat)
    (c : Nat) (o : List Nat) (e : Option Nat) (k n : Nat) (blob blob2 : List Nat) :
    EncodeUint64 ⟨false, sink, c, o, e, k⟩ n =
      ⟨false, sink, c, o ++ leBytes 8 n, e, k⟩ ∧
    EncodeStaticBytes ⟨false, sink, c, o, e, k⟩ blob =
      ⟨false, sink, c, o ++ blob, e, k⟩ ∧
    EncodeDynamicBytesOffset ⟨false, sink, c, o, e, k⟩ blob2 =
      ⟨false, sink, c, o ++ leBytes 4 k, e, (k + blob2.length) % 2 ^ 32⟩ := by
  refine ⟨rfl, rfl, rfl⟩

/-- C10. With resolvable extent `[start, stop)` and a destination strictly
shorter than the content, `DynamicBytesReader.Read` succeeds and silently
truncates the copy to the destination's length; `ByteArrayReader.Read`
instead panics (`none`, source: `panic("invalid size")`) whenever its
destination's length differs from the declared `Size`. -/
theorem claim10_dynamic_read_truncates (payload v w : List Nat) (pos : ReadPos)
    (start stop size : Nat)
    (h1 : ReaderSource.offset payload pos.Offset = some start)
    (h2 : ReaderSource.objectEnd payload pos = some stop)
    (h3 : start ≤ stop) (h4 : stop ≤ payload.length)
    (h5 : v.length < stop - start)
    (h6 : w.length ≠ size) :
    DynamicBytesReader.Read payload pos v =
      some (((payload.drop start).take (stop - start)).take v.length) ∧
    ByteArrayReader.Read size payload pos w = none := by
  constructor
  · have hslice : sliceGo payload start stop = some ((payload.drop start).take (stop - start)) := by
      rw [sliceGo, if_pos ⟨h3, h4⟩]
    have hlen : ((payload.drop start).take (stop - start)).length = stop - start := by
      simp [List.length_take, List.length_drop]
      omega
    simp only [DynamicBytesReader.Read, h1, h2, hslice, Option.bind_eq_bind,
      Option.some_bind, goCopy, hlen, Option.some.injEq]
    rw [min_eq_left (by omega), List.drop_eq_nil_of_le (le_refl v.length)]
    simp
  · simp [ByteArrayReader.Read, h6]

/-- Witness for C10: payload with an offset slot holding 4 and content
`[9, 8, 7, 6, 5]` over `[4, 9)`; a 2-byte destination receives the
truncated `[9, 8]`, and a 1-byte destination with declared size 3 panics in
`ByteArrayReader.Read`. -/
theorem claim10_dynamic_read_truncates_witness :
    DynamicBytesReader.Read [4, 0, 0, 0, 9, 8, 7, 6, 5] ⟨0, 0, 9⟩ [0, 0] = some [9, 8] ∧
    ByteArrayReader.Read 3 [4, 0, 0, 0, 9, 8, 7, 6, 5] ⟨0, 0, 9⟩ [0] = none := by
  have h := claim10_dynamic_read_truncates [4, 0, 0, 0, 9, 8, 7, 6, 5] [0, 0] [0]
    ⟨0, 0, 9⟩ 4 9 3 (by decide) (by decide) (by decide) (by decide) (by decide)
    (by decide)
  simpa using h

end SSZ
